import Mathlib

/-!
Shallow embedding of `drivers/md/dm-crypt.c` (Marvell Armada 38x tree,
dm-crypt with optional OCF offload backend).

Machine integers are modelled as `Nat`/`Int` with explicit truncation where
the C code can overflow.  C strings are modelled as `List Char` (the NUL
terminator is implicit: the list holds the characters strictly before it).
Byte buffers are `List Nat` (each entry < 256) or, for the OCF scatter/gather
memory model, a flat memory `Nat → Nat` indexed by address.
-/

namespace DmCrypt

/-! ### errno constants (from <asm-generic/errno-base.h>) -/

def EPERM : Int := 1
def ENOMEM : Int := 12
def EINVAL : Int := 22
def EAGAIN : Int := 11
def EIO : Int := 5

def SECTOR_SHIFT : Nat := 9

/-! ### `struct crypt_io` (the per-bio request lifecycle object) and
`dec_pending` (dm-crypt.c lines 728-796).

`pending` is an `atomic_t` (C int); we keep it as `Int` so that the
decrement of `atomic_dec_and_test` is exact.  The HIGHMEM bounce-copy block
is compiled out in this model (it only moves already-decrypted bytes and
frees bounce pages; it does not touch `io->error` or `pending`).
`dec_pending` returns the updated object together with `some e` when
`atomic_dec_and_test` hit zero and `bio_endio(bio, io->error)` ran with
error value `e`; it returns `none` when the function returned early. -/

structure crypt_io where
  pending : Int
  error : Int
  deriving Repr, DecidableEq

def dec_pending (io : crypt_io) (error : Int) : crypt_io × Option Int :=
  let io1 := if error < 0 then { io with error := error } else io
  let io2 := { io1 with pending := io1.pending - 1 }
  if io2.pending = 0 then (io2, some io2.error) else (io2, none)

/-- Run a sequence of `dec_pending` calls against one `crypt_io`, collecting
the completion events (`bio_endio` error values) in order. -/
def run_dec_pendings (io : crypt_io) : List Int → crypt_io × List Int
  | [] => (io, [])
  | e :: rest =>
    let r1 := dec_pending io e
    let r2 := run_dec_pendings r1.1 rest
    (r2.1, r1.2.toList ++ r2.2)

/-! ### `struct crypt_config` (the fields the claims touch).

`flags` is an `unsigned long` bit set over `enum flags
{ DM_CRYPT_SUSPENDED, DM_CRYPT_KEY_VALID }`; we model the two bits as two
Booleans.  `key` is the flexible array member `u8 key[0]` holding
`key_size` bytes. -/

structure crypt_config where
  iv_offset : Nat
  iv_size : Nat
  flag_suspended : Bool
  flag_key_valid : Bool
  key_size : Nat
  key : List Nat
  deriving Repr, DecidableEq

/-! ### Key handling: `crypt_decode_key`, `crypt_set_key`, `crypt_wipe_key`
(dm-crypt.c lines 987-1032). -/

/-- `isxdigit` from ctype.h restricted to what the decode loop feeds it. -/
def isxdigit (c : Char) : Bool :=
  (Char.ofNat 48 ≤ c ∧ c ≤ Char.ofNat 57) ∨
  (Char.ofNat 97 ≤ c ∧ c ≤ Char.ofNat 102) ∨
  (Char.ofNat 65 ≤ c ∧ c ≤ Char.ofNat 70)

/-- Value of a hex digit, as computed by `simple_strtoul`'s loop body
(`isdigit(c) ? c - '0' : toupper(c) - 'A' + 10`). -/
def hex_digit_val (c : Char) : Nat :=
  if Char.ofNat 48 ≤ c ∧ c ≤ Char.ofNat 57 then c.toNat - 48
  else if Char.ofNat 97 ≤ c then c.toNat - 97 + 10
  else c.toNat - 65 + 10

/-- `simple_strtoul(buffer, &endp, 16)` on the two-character buffer
`[c0, c1]` (with `buffer[2] = NUL`).  Returns the parsed value and the
offset of `endp` from the start of the buffer.  The kernel helper first
skips a literal `0x`/`0X` prefix, then consumes hex digits. -/
def simple_strtoul16_2 (c0 c1 : Char) : Nat × Nat :=
  if c0 = Char.ofNat 48 ∧ (c1 = Char.ofNat 120 ∨ c1 = Char.ofNat 88) then (0, 2)
  else if isxdigit c0 then
    if isxdigit c1 then (hex_digit_val c0 * 16 + hex_digit_val c1, 2)
    else (hex_digit_val c0, 1)
  else (0, 0)

/-- `crypt_decode_key(key, hex, size)`: decode `size` bytes from the hex
string, requiring each two-character group to be fully consumed
(`endp == &buffer[2]`) and, at the end, `*hex == NUL` (here: the remaining
list is empty).  On success returns the decoded bytes; on failure `-EINVAL`.
(The C function also leaves partially decoded bytes in `key` on failure;
its callers discard the buffer in that case, so the model drops them.) -/
def crypt_decode_key : List Char → Nat → Except Int (List Nat)
  | hex, 0 => if hex.isEmpty then .ok [] else .error (-EINVAL)
  | hex, size + 1 =>
    let c0 := hex.headD (Char.ofNat 0)
    let c1 := (hex.drop 1).headD (Char.ofNat 0)
    let pr := simple_strtoul16_2 c0 c1
    if pr.2 ≠ 2 then .error (-EINVAL)
    else
      match crypt_decode_key (hex.drop 2) size with
      | .error e => .error e
      | .ok rest => .ok (pr.1 % 256 :: rest)

/-- `crypt_set_key(cc, key)` (dm-crypt.c lines 1010-1025).  Note that
`cc->key_size = key_size` is installed before the validity check
("initial settings"), and `DM_CRYPT_KEY_VALID` is set on every successful
return, including the zero-length `"-"` key. -/
def crypt_set_key (cc : crypt_config) (key : List Char) : crypt_config × Int :=
  let key_size := key.length >>> 1
  if cc.key_size ≠ 0 ∧ cc.key_size ≠ key_size then (cc, -EINVAL)
  else
    let cc1 := { cc with key_size := key_size }
    if key_size = 0 then
      if key ≠ [Char.ofNat 45] then (cc1, -EINVAL)
      else ({ cc1 with flag_key_valid := true }, 0)
    else
      match crypt_decode_key key key_size with
      | .error _ => (cc1, -EINVAL)
      | .ok bytes => ({ cc1 with key := bytes, flag_key_valid := true }, 0)

/-- `crypt_wipe_key(cc)` (dm-crypt.c lines 1027-1032): clear
`DM_CRYPT_KEY_VALID`, `memset(&cc->key, 0, cc->key_size)`, return 0. -/
def crypt_wipe_key (cc : crypt_config) : crypt_config × Int :=
  ({ cc with flag_key_valid := false, key := List.replicate cc.key_size 0 }, 0)

/-! ### Control plane: `crypt_postsuspend`, `crypt_preresume`,
`crypt_message` (dm-crypt.c lines 1408-1456). -/

def crypt_postsuspend (cc : crypt_config) : crypt_config :=
  { cc with flag_suspended := true }

def crypt_preresume (cc : crypt_config) : Int :=
  if cc.flag_key_valid = false then -EAGAIN else 0

def crypt_resume (cc : crypt_config) : crypt_config :=
  { cc with flag_suspended := false }

/-- ASCII `tolower`, as used by `strnicmp`. -/
def ascii_tolower (c : Char) : Char :=
  if Char.ofNat 65 ≤ c ∧ c ≤ Char.ofNat 90 then Char.ofNat (c.toNat + 32) else c

/-- `strnicmp(a, b, sizeof(b)) == 0` where `n` covers `b` and its NUL:
case-insensitive equality of the two full strings. -/
def strnicmp_eq (a b : List Char) : Bool :=
  a.map ascii_tolower = b.map ascii_tolower

def keyStr : List Char := [Char.ofNat 107, Char.ofNat 101, Char.ofNat 121]
def setStr : List Char := [Char.ofNat 115, Char.ofNat 101, Char.ofNat 116]
def wipeStr : List Char := [Char.ofNat 119, Char.ofNat 105, Char.ofNat 112, Char.ofNat 101]

/-- `crypt_message(ti, argc, argv)`; `argv` is the argument vector.  Returns
the updated configuration and the return code. -/
def crypt_message (cc : crypt_config) (argv : List (List Char)) : crypt_config × Int :=
  if argv.length < 2 then (cc, -EINVAL)
  else if strnicmp_eq (argv.headD []) keyStr then
    if cc.flag_suspended = false then (cc, -EINVAL)
    else if argv.length = 3 ∧ strnicmp_eq (argv.getD 1 []) setStr then
      crypt_set_key cc (argv.getD 2 [])
    else if argv.length = 2 ∧ strnicmp_eq (argv.getD 1 []) wipeStr then
      crypt_wipe_key cc
    else (cc, -EINVAL)
  else (cc, -EINVAL)

/-! ### Bios and the conversion context (dm-crypt.c lines 62-71, 600-613).

A bio is modelled by its starting index `bi_idx` and the list of segment
lengths `bv_len` of its `bio_vec` array (`bi_vcnt = segs.length`).  Page
pointers and data are abstracted away: the conversion claims are about
cursor movement, sector sequencing and return codes. -/

structure bio_model where
  bi_idx : Nat
  segs : List Nat
  deriving Repr, DecidableEq

structure convert_context where
  bio_in : bio_model
  bio_out : bio_model
  offset_in : Nat
  offset_out : Nat
  idx_in : Nat
  idx_out : Nat
  sector : Nat
  write : Bool
  deriving Repr, DecidableEq

/-- `crypt_convert_init` (dm-crypt.c lines 600-613).  A NULL bio pointer
(process_write passes `bio_out = NULL` and installs the clone later) is
modelled as `none`; the stored bio then defaults to the empty bio, and the
corresponding index is 0 exactly as in the C code. -/
def crypt_convert_init (cc : crypt_config) (bio_out bio_in : Option bio_model)
    (sector : Nat) (write : Bool) : convert_context :=
  { bio_in := bio_in.getD ⟨0, []⟩
    bio_out := bio_out.getD ⟨0, []⟩
    offset_in := 0
    offset_out := 0
    idx_in := match bio_in with | some b => b.bi_idx | none => 0
    idx_out := match bio_out with | some b => b.bi_idx | none => 0
    sector := sector + cc.iv_offset
    write := write }

/-- One loop iteration's cursor update, shared verbatim by `crypt_convert`
(lines 635-645) and `ocf_crypt_convert` (lines 520-530): both scatter
elements have length `1 << SECTOR_SHIFT`, each offset advances by that
length and rolls over into the next segment index when it reaches the
current segment's `bv_len`. -/
def advance_cursors (ctx : convert_context) : convert_context :=
  let sg_len := 1 <<< SECTOR_SHIFT
  let bv_in_len := ctx.bio_in.segs.getD ctx.idx_in 0
  let bv_out_len := ctx.bio_out.segs.getD ctx.idx_out 0
  let off_in := ctx.offset_in + sg_len
  let off_out := ctx.offset_out + sg_len
  { ctx with
    offset_in := if bv_in_len ≤ off_in then 0 else off_in
    idx_in := if bv_in_len ≤ off_in then ctx.idx_in + 1 else ctx.idx_in
    offset_out := if bv_out_len ≤ off_out then 0 else off_out
    idx_out := if bv_out_len ≤ off_out then ctx.idx_out + 1 else ctx.idx_out }

/-- The `while` guard of both conversion loops:
`ctx->idx_in < ctx->bio_in->bi_vcnt && ctx->idx_out < ctx->bio_out->bi_vcnt`. -/
def conv_guard (ctx : convert_context) : Prop :=
  ctx.idx_in < ctx.bio_in.segs.length ∧ ctx.idx_out < ctx.bio_out.segs.length

instance : DecidablePred conv_guard := fun ctx => by
  unfold conv_guard; infer_instance

/-- `crypt_convert` (non-OCF backend, dm-crypt.c lines 619-656), with the
per-chunk call to `crypt_convert_scatterlist` abstracted by
`csl : sector → result` (the scatterlist converter generates the IV for
exactly that sector and runs the block cipher over one 512-byte chunk).
`r` is the local accumulator initialised to 0 by the wrapper below.
Besides the C function's return value and the final context, the model
returns the trace of `(sector, length)` chunks handed to `csl`, in call
order. -/
def crypt_convert_loop (csl : Nat → Int) (r : Int) (ctx : convert_context) :
    Int × convert_context × List (Nat × Nat) :=
  if _h : conv_guard ctx then
    let ctx1 := advance_cursors ctx
    let r1 := csl ctx.sector
    if r1 < 0 then (r1, ctx1, [(ctx.sector, 1 <<< SECTOR_SHIFT)])
    else
      let rec_res := crypt_convert_loop csl r1 { ctx1 with sector := ctx.sector + 1 }
      (rec_res.1, rec_res.2.1, (ctx.sector, 1 <<< SECTOR_SHIFT) :: rec_res.2.2)
  else (r, ctx, [])
  termination_by
    (ctx.bio_in.segs.length - ctx.idx_in,
     ctx.bio_in.segs.getD ctx.idx_in 0 + 1 - ctx.offset_in)
  decreasing_by
    simp only [advance_cursors, conv_guard] at *
    by_cases hc : ctx.bio_in.segs.getD ctx.idx_in 0 ≤ ctx.offset_in + 1 <<< SECTOR_SHIFT
    · simp only [if_pos hc]
      exact Prod.Lex.left _ _ (by omega)
    · simp only [if_neg hc]
      have hs : (0 : Nat) < 1 <<< SECTOR_SHIFT := by decide
      exact Prod.Lex.right _ (by omega)

def crypt_convert (csl : Nat → Int) (ctx : convert_context) :
    Int × convert_context × List (Nat × Nat) :=
  crypt_convert_loop csl 0 ctx

/-! ### OCF (async) backend: `dm_ocf_process`, `ocf_crypt_convert`
(dm-crypt.c lines 389-563). -/

/-- Forward byte copy `memcpy(dst, src, len)` over a flat memory, reading
from the pre-call memory (exact for the C call, whose buffers are either
identical — then the copy is skipped — or disjoint). -/
def memcpy (mem : Nat → Nat) (dst src len : Nat) : Nat → Nat :=
  fun a => if dst ≤ a ∧ a < dst + len then mem (src + (a - dst)) else mem a

/-- Result of a successful `dm_ocf_process`: the memory after the
pre-dispatch copy, and the address dispatched to the engine
(`crp->crp_buf = sg_virt(out)`). -/
def except_ok {e a : Type} : Except e a → Bool
  | .ok _ => true
  | .error _ => false

def dispatched_mem : Except Int ((Nat → Nat) × Nat) → Nat → Nat
  | .ok pr => pr.1
  | .error _ => fun _ => 0

def dispatched_buf : Except Int ((Nat → Nat) × Nat) → Nat
  | .ok pr => pr.2
  | .error _ => 0

/-- `dm_ocf_process` (dm-crypt.c lines 389-462), restricted to its memory
behaviour: reject a NULL IV with `-EPERM`; fail with `-ENOMEM` when
`crypto_getreq` fails (`getreq_ok = false`); copy the source scatter
buffer into the destination one when their addresses differ
(`sg_virt(out) != sg_virt(in)`); dispatch the destination buffer.  The
crypto descriptor fields and the busy-retry loop around
`crypto_dispatch` do not affect the buffers and are not modelled. -/
def dm_ocf_process (mem : Nat → Nat) (out_addr in_addr len : Nat)
    (iv : Option (List Nat)) (getreq_ok : Bool) :
    Except Int ((Nat → Nat) × Nat) :=
  if iv = none then .error (-EPERM)
  else if getreq_ok = false then .error (-ENOMEM)
  else
    let mem1 := if out_addr ≠ in_addr then memcpy mem out_addr in_addr len else mem
    .ok (mem1, out_addr)

/-- The loop of `ocf_crypt_convert` (dm-crypt.c lines 507-548): same cursor
walk as `crypt_convert`, plus the count `num` of chunks submitted on the
write path (`num++` happens before the dispatch, so a failing dispatch is
still counted).  `csl` abstracts `ocf_crypt_convert_scatterlist` as above. -/
def ocf_convert_loop (csl : Nat → Int) (r : Int) (num : Nat) (ctx : convert_context) :
    Int × convert_context × Nat :=
  if _h : conv_guard ctx then
    let ctx1 := advance_cursors ctx
    let num1 := if ctx.write then num + 1 else num
    let r1 := csl ctx.sector
    if r1 < 0 then (r1, ctx1, num1)
    else ocf_convert_loop csl r1 num1 { ctx1 with sector := ctx.sector + 1 }
  else (r, ctx, num)
  termination_by
    (ctx.bio_in.segs.length - ctx.idx_in,
     ctx.bio_in.segs.getD ctx.idx_in 0 + 1 - ctx.offset_in)
  decreasing_by
    simp only [advance_cursors, conv_guard] at *
    by_cases hc : ctx.bio_in.segs.getD ctx.idx_in 0 ≤ ctx.offset_in + 1 <<< SECTOR_SHIFT
    · simp only [if_pos hc]
      exact Prod.Lex.left _ _ (by omega)
    · simp only [if_neg hc]
      have hs : (0 : Nat) < 1 <<< SECTOR_SHIFT := by decide
      exact Prod.Lex.right _ (by omega)

/-- `wait_event_timeout(q, cond, t)` returns 0 iff it timed out with the
condition still false.  `cond_met_in_time` abstracts whether all write
completions (`dm_ocf_wr_completed == dm_ocf_wr_pending`) arrived before
the 30000 ms timeout. -/
def wait_event_timeout_result (cond_met_in_time : Bool) : Nat :=
  if cond_met_in_time then 1 else 0

/-- `ocf_crypt_convert` (dm-crypt.c lines 486-563).  `alloc_ok` models the
`kmalloc` of `ocf_wr_priv` on the write path.  After the loop, the write
path adds `num` to `dm_ocf_wr_pending` and waits (bounded by 30 s) for the
completions; on timeout (`wait_event_timeout` returning 0) it only
`printk`s — the return value is the loop result `r` in either case. -/
def ocf_crypt_convert (csl : Nat → Int) (alloc_ok cond_met_in_time : Bool)
    (ctx : convert_context) : Int × convert_context × Nat :=
  if ctx.write ∧ alloc_ok = false then (-ENOMEM, ctx, 0)
  else
    let res := ocf_convert_loop csl 0 0 ctx
    if ctx.write then
      let pending := res.2.2
      let wr_tm := wait_event_timeout_result cond_met_in_time
      if wr_tm = 0 then
        -- `printk("... wr work was not finished ...")`: log only, then
        -- kfree(ocf_wr_priv); the return value is the loop result r
        (res.1, res.2.1, pending)
      else (res.1, res.2.1, pending)
    else res

/-! ### benbi IV generator (dm-crypt.c lines 254-292). -/

/-- `ilog2` for a positive argument: floor of log2. -/
def ilog2 (n : Nat) : Nat := Nat.log2 n

/-- `crypt_iv_benbi_ctr`: `bs` is `crypto_blkcipher_blocksize(cc->tfm)`.
On success returns the computed `cc->iv_gen_private.benbi_shift`. -/
def crypt_iv_benbi_ctr (bs : Nat) : Except Int Nat :=
  let log := ilog2 bs
  if 1 <<< log ≠ bs then .error (-EINVAL)
  else if 9 < log then .error (-EINVAL)
  else .ok (9 - log)

/-- Big-endian bytes of the low `8*n` bits of `v`, most significant first
(byte `j` of `beBytes n v` is `v / 2^(8*(n-1-j)) % 256`). -/
def beBytes : Nat → Nat → List Nat
  | 0, _ => []
  | n + 1, v => v / 2 ^ (8 * n) % 256 :: beBytes n v

/-- `cpu_to_be64`: the eight big-endian bytes of `v mod 2^64`. -/
def cpu_to_be64 (v : Nat) : List Nat := beBytes 8 v

/-- Decode a big-endian byte string back to a number. -/
def beDecode (bs : List Nat) : Nat := bs.foldl (fun a b => a * 256 + b) 0

/-- `crypt_iv_benbi_gen`: `memset(iv, 0, cc->iv_size - sizeof(u64))`, then
`put_unaligned(cpu_to_be64(((u64)sector << benbi_shift) + 1), iv + cc->iv_size - 8)`.
The shift and increment are u64 arithmetic; `cpu_to_be64` keeps only the
low 64 bits, which models the truncation. -/
def crypt_iv_benbi_gen (iv_size shift sector : Nat) : List Nat :=
  List.replicate (iv_size - 8) 0 ++ cpu_to_be64 ((sector <<< shift) + 1)

/-! ### Cipher-spec parsing in `crypt_ctr` (dm-crypt.c lines 1056-1094).

`strsep(&s, delims)` on a possibly-NULL C string: a NULL pointer is `none`.
If `s` is non-NULL, the first character drawn from `delims` is replaced by
NUL: the call returns the prefix and leaves `s` pointing just past it; if no
delimiter occurs, the call returns the whole string and sets `s` to NULL. -/

def strsep (delims : List Char) : Option (List Char) →
    Option (List Char) × Option (List Char)
  | none => (none, none)
  | some s =>
    match s.findIdx? (· ∈ delims) with
    | none => (some s, none)
    | some i => (some (s.take i), some (s.drop (i + 1)))

structure cipher_spec where
  cipher : Option (List Char)
  chainmode : Option (List Char)
  ivmode : Option (List Char)
  ivopts : Option (List Char)
  deriving Repr, DecidableEq

/-- The four `strsep` calls of `crypt_ctr` on `argv[0]`:
`cipher = strsep(&tmp, "-"); chainmode = strsep(&tmp, "-");
ivopts = strsep(&tmp, "-"); ivmode = strsep(&ivopts, ":");`. -/
def parse_cipher_spec (arg : List Char) : cipher_spec :=
  let r1 := strsep [Char.ofNat 45] (some arg)
  let r2 := strsep [Char.ofNat 45] r1.2
  let r3 := strsep [Char.ofNat 45] r2.2
  let r4 := strsep [Char.ofNat 58] r3.1
  { cipher := r1.1, chainmode := r2.1, ivmode := r4.1, ivopts := r4.2 }

def cbcStr : List Char := [Char.ofNat 99, Char.ofNat 98, Char.ofNat 99]
def ecbStr : List Char := [Char.ofNat 101, Char.ofNat 99, Char.ofNat 98]
def plainStr : List Char :=
  [Char.ofNat 112, Char.ofNat 108, Char.ofNat 97, Char.ofNat 105, Char.ofNat 110]

/-- The compatibility-defaults block:
`if (!chainmode || (strcmp(chainmode, "plain") == 0 && !ivmode))
 { chainmode = "cbc"; ivmode = "plain"; }`. -/
def apply_compat_defaults (s : cipher_spec) : cipher_spec :=
  if s.chainmode = none ∨ (s.chainmode = some plainStr ∧ s.ivmode = none) then
    { s with chainmode := some cbcStr, ivmode := some plainStr }
  else s

/-- The parsing stage of `crypt_ctr` up to and including the
`"This chaining mode requires an IV mechanism"` check
(`if (strcmp(chainmode, "ecb") && !ivmode) ... return -EINVAL` via `bad1`).
Later constructor stages (key decoding, backend session setup, pool and
device setup) are modelled separately or are external collaborators. -/
def crypt_ctr_parse (arg : List Char) : Except Int cipher_spec :=
  let s := apply_compat_defaults (parse_cipher_spec arg)
  if s.chainmode ≠ some ecbStr ∧ s.ivmode = none then .error (-EINVAL)
  else .ok s

/-! ### Concrete exemplars used by witnesses and counterexamples -/

def ccEx : crypt_config := ⟨3, 16, false, false, 0, []⟩

/-- A configuration with no key installed yet (constructed with `"-"`). -/
def ccZeroEx : crypt_config := ⟨0, 16, false, false, 0, []⟩

/-- A configuration with a one-byte key installed. -/
def ccOneEx : crypt_config := ⟨0, 16, false, true, 1, [7]⟩

def aesStr : List Char := [Char.ofNat 97, Char.ofNat 101, Char.ofNat 115]

def aabbStr : List Char := [Char.ofNat 97, Char.ofNat 97, Char.ofNat 98, Char.ofNat 98]

def dashStr : List Char := [Char.ofNat 45]

/-- A read context over one 512-byte segment on each side, at sector 7. -/
def ctxEx : convert_context := ⟨⟨0, [512]⟩, ⟨0, [512]⟩, 0, 0, 0, 0, 7, false⟩

/-- A write context over one 512-byte segment on each side, at sector 0. -/
def ctxWEx : convert_context := ⟨⟨0, [512]⟩, ⟨0, [512]⟩, 0, 0, 0, 0, 0, true⟩

/-! ## Theorems -/

/-! ### Unfolding lemmas for the conversion loops -/

theorem crypt_convert_loop_stop (csl : Nat → Int) (r : Int) (ctx : convert_context)
    (h : ¬ conv_guard ctx) : crypt_convert_loop csl r ctx = (r, ctx, []) := by
  rw [crypt_convert_loop.eq_def]
  simp [h]

theorem crypt_convert_loop_err (csl : Nat → Int) (r : Int) (ctx : convert_context)
    (h : conv_guard ctx) (hlt : csl ctx.sector < 0) :
    crypt_convert_loop csl r ctx
      = (csl ctx.sector, advance_cursors ctx, [(ctx.sector, 1 <<< SECTOR_SHIFT)]) := by
  rw [crypt_convert_loop.eq_def]
  simp [h, hlt]

theorem crypt_convert_loop_ok (csl : Nat → Int) (r : Int) (ctx : convert_context)
    (h : conv_guard ctx) (hge : ¬ csl ctx.sector < 0) :
    crypt_convert_loop csl r ctx
      = ((crypt_convert_loop csl (csl ctx.sector)
            { advance_cursors ctx with sector := ctx.sector + 1 }).1,
         (crypt_convert_loop csl (csl ctx.sector)
            { advance_cursors ctx with sector := ctx.sector + 1 }).2.1,
         (ctx.sector, 1 <<< SECTOR_SHIFT)
           :: (crypt_convert_loop csl (csl ctx.sector)
                { advance_cursors ctx with sector := ctx.sector + 1 }).2.2) := by
  rw [crypt_convert_loop.eq_def]
  simp [h, hge]

theorem ocf_convert_loop_stop (csl : Nat → Int) (r : Int) (num : Nat)
    (ctx : convert_context) (h : ¬ conv_guard ctx) :
    ocf_convert_loop csl r num ctx = (r, ctx, num) := by
  rw [ocf_convert_loop.eq_def]
  simp [h]

theorem ocf_convert_loop_err (csl : Nat → Int) (r : Int) (num : Nat)
    (ctx : convert_context) (h : conv_guard ctx) (hlt : csl ctx.sector < 0) :
    ocf_convert_loop csl r num ctx
      = (csl ctx.sector, advance_cursors ctx, if ctx.write then num + 1 else num) := by
  rw [ocf_convert_loop.eq_def]
  simp [h, hlt]

theorem ocf_convert_loop_ok (csl : Nat → Int) (r : Int) (num : Nat)
    (ctx : convert_context) (h : conv_guard ctx) (hge : ¬ csl ctx.sector < 0) :
    ocf_convert_loop csl r num ctx
      = ocf_convert_loop csl (csl ctx.sector) (if ctx.write then num + 1 else num)
          { advance_cursors ctx with sector := ctx.sector + 1 } := by
  rw [ocf_convert_loop.eq_def]
  simp [h, hge]

/-! ### C1: error latching in `dec_pending` -/

/-- A full run of `dec_pending` calls whose count equals the initial pending
counter: the request completes exactly once, and the error it completes with
is the `foldl` latch — every negative argument overwrites, every
non-negative argument is ignored. -/
theorem run_dec_pendings_full (errs : List Int) (e0 : Int) (h : errs ≠ []) :
    run_dec_pendings ⟨(errs.length : Int), e0⟩ errs
      = (⟨0, errs.foldl (fun a e => if e < 0 then e else a) e0⟩,
         [errs.foldl (fun a e => if e < 0 then e else a) e0]) := by
  induction errs generalizing e0 with
  | nil => exact absurd rfl h
  | cons e rest ih =>
    by_cases hrest : rest = []
    · subst hrest
      by_cases he : e < 0 <;>
        simp [run_dec_pendings, dec_pending, he]
    · have hne : ¬ ((rest.length : Int) = 0) := by
        simpa using fun hh => hrest (List.length_eq_zero.mp hh)
      by_cases he : e < 0 <;>
        simp only [run_dec_pendings, dec_pending, he, if_true, if_false, ite_true,
          ite_false, List.length_cons, Nat.cast_add, Nat.cast_one,
          add_sub_cancel_right, hne, Option.toList_none, List.nil_append,
          List.foldl_cons] <;>
        exact ih _ hrest

/-- The error latch of `dec_pending` over a run equals the LAST negative
value passed (or the seed when no failure occurred): successes never
overwrite a latched failure, later failures do. -/
theorem foldl_latch_eq_getLastD (l : List Int) (d : Int) :
    l.foldl (fun a e => if e < 0 then e else a) d
      = (l.filter (fun e => e < 0)).getLastD d := by
  induction l generalizing d with
  | nil => rfl
  | cons e rest ih =>
    rw [List.foldl_cons]
    by_cases he : e < 0
    · rw [if_pos he, ih e,
        show (e :: rest).filter (fun e => e < 0) = e :: rest.filter (fun e => e < 0) by
          simp [he],
        List.getLastD_cons]
    · rw [if_neg he, ih d,
        show (e :: rest).filter (fun e => e < 0) = rest.filter (fun e => e < 0) by
          simp [he]]

/-- C1, corrected: for a run of `dec_pending(rlo, err)` calls matching the
initial pending count, the original bio is completed exactly once, when
pending reaches zero, and the completion error is the LAST negative `err`
passed (0 when every call succeeded) — a later success does not overwrite a
latched failure, but a later different failure does.  (The claim's
"first failure wins" is refuted by `C1_counterexample`.) -/
theorem C1_dec_pending_error_latching (errs : List Int) (h : errs ≠ []) :
    (run_dec_pendings ⟨(errs.length : Int), 0⟩ errs).2
        = [(errs.filter (fun e => e < 0)).getLastD 0] ∧
    (run_dec_pendings ⟨(errs.length : Int), 0⟩ errs).1.pending = 0 := by
  rw [run_dec_pendings_full errs 0 h]
  simp [foldl_latch_eq_getLastD]

theorem C1_dec_pending_error_latching_witness :
    (run_dec_pendings ⟨(([-5, 0, -7] : List Int).length : Int), 0⟩ [-5, 0, -7]).2
        = [(([-5, 0, -7] : List Int).filter (fun e => e < 0)).getLastD 0] ∧
    (run_dec_pendings ⟨(([-5, 0, -7] : List Int).length : Int), 0⟩ [-5, 0, -7]).1.pending
        = 0 :=
  C1_dec_pending_error_latching [-5, 0, -7] (by decide)

/-- C1, counterexample to the claim as stated: with pending = 2, the calls
`dec_pending(io, -5); dec_pending(io, -7)` complete the bio with error -7,
the SECOND failure, not the first one (-5): `io->error = error` is an
unconditional store, not a first-wins CAS latch. -/
theorem C1_counterexample :
    (run_dec_pendings ⟨2, 0⟩ [-5, -7]).2 = [-7] ∧
    ¬ (run_dec_pendings ⟨2, 0⟩ [-5, -7]).2 = [-5] := by decide

/-! ### C3: conversion loop sector sequencing -/

/-- Specification of `crypt_convert_loop` runs started with a non-negative
accumulator: the trace of chunks handed to the scatterlist converter is one
512-byte chunk per iteration at consecutive sectors starting from the
initial running sector, and the loop stops either because the cipher
returned a negative result for the chunk just processed (the sector is then
not incremented for it) or because one of the bios ran out of segments. -/
theorem crypt_convert_loop_spec (csl : Nat → Int) :
    ∀ (r0 : Int) (ctx : convert_context), 0 ≤ r0 →
    (∀ i, i < (crypt_convert_loop csl r0 ctx).2.2.length →
       (crypt_convert_loop csl r0 ctx).2.2.getD i (0, 0)
         = (ctx.sector + i, 1 <<< SECTOR_SHIFT)) ∧
    ((crypt_convert_loop csl r0 ctx).1 < 0 ∧
       (crypt_convert_loop csl r0 ctx).2.1.sector + 1
         = ctx.sector + (crypt_convert_loop csl r0 ctx).2.2.length
     ∨ 0 ≤ (crypt_convert_loop csl r0 ctx).1 ∧
       (crypt_convert_loop csl r0 ctx).2.1.sector
         = ctx.sector + (crypt_convert_loop csl r0 ctx).2.2.length ∧
       ¬ conv_guard (crypt_convert_loop csl r0 ctx).2.1) := by
  intro r0 ctx
  induction r0, ctx using crypt_convert_loop.induct csl with
  | case1 r ctx hg r1 hlt =>
    intro hr
    have hlt' : csl ctx.sector < 0 := hlt
    rw [crypt_convert_loop_err csl r ctx hg hlt']
    refine ⟨?_, Or.inl ⟨hlt', ?_⟩⟩
    · intro i hi
      have hi0 : i = 0 := by simpa using hi
      subst hi0
      rfl
    · show (advance_cursors ctx).sector + 1 = ctx.sector + 1
      simp [advance_cursors]
  | case2 r ctx hg ctx1 r1 hge ih =>
    intro hr
    have hge' : ¬ csl ctx.sector < 0 := hge
    have hr1 : (0 : Int) ≤ r1 := not_lt.mp hge
    obtain ⟨ihtr, ihend⟩ := ih hr1
    obtain ⟨res, hres⟩ : ∃ z, crypt_convert_loop csl r1
        { bio_in := ctx1.bio_in, bio_out := ctx1.bio_out, offset_in := ctx1.offset_in,
          offset_out := ctx1.offset_out, idx_in := ctx1.idx_in, idx_out := ctx1.idx_out,
          sector := ctx.sector + 1, write := ctx1.write } = z := ⟨_, rfl⟩
    have hsec : ({ bio_in := ctx1.bio_in, bio_out := ctx1.bio_out,
                   offset_in := ctx1.offset_in, offset_out := ctx1.offset_out,
                   idx_in := ctx1.idx_in, idx_out := ctx1.idx_out,
                   sector := ctx.sector + 1,
                   write := ctx1.write } : convert_context).sector
        = ctx.sector + 1 := rfl
    rw [hres, hsec] at ihtr ihend
    have hstep : crypt_convert_loop csl r ctx
        = (res.1, res.2.1, (ctx.sector, 1 <<< SECTOR_SHIFT) :: res.2.2) := by
      rw [← hres]
      exact crypt_convert_loop_ok csl r ctx hg hge'
    rw [hstep]
    constructor
    · intro i hi
      match i with
      | 0 => rfl
      | j + 1 =>
        have hj : j < res.2.2.length := by simpa using hi
        rw [List.getD_cons_succ, ihtr j hj]
        rw [Prod.mk.injEq]
        exact ⟨by omega, rfl⟩
    · rcases ihend with ⟨h1, h2⟩ | ⟨h1, h2, h3⟩
      · exact Or.inl ⟨h1, by simp only [List.length_cons]; omega⟩
      · exact Or.inr ⟨h1, by simp only [List.length_cons]; omega, h3⟩
  | case3 r ctx hg =>
    intro hr
    rw [crypt_convert_loop_stop csl r ctx hg]
    exact ⟨fun i hi => absurd hi (by simp), Or.inr ⟨hr, by simp, hg⟩⟩

/-- C3, confirmed: `crypt_convert_init` sets the running sector to the
request's logical sector plus `cc->iv_offset`, and `crypt_convert`
processes exactly one `1 << SECTOR_SHIFT`-byte chunk per iteration, handing
the scatterlist converter (which generates the IV) the current sector value,
incrementing the sector by one after each successfully converted chunk,
until a bio's segments are exhausted or the converter returns a negative
error. -/
theorem C3_crypt_convert_init_and_sectors
    (cc : crypt_config) (bo bi : Option bio_model) (s : Nat) (w : Bool)
    (csl : Nat → Int) (ctx : convert_context) :
    (crypt_convert_init cc bo bi s w).sector = s + cc.iv_offset ∧
    (∀ i, i < (crypt_convert csl ctx).2.2.length →
        (crypt_convert csl ctx).2.2.getD i (0, 0)
          = (ctx.sector + i, 1 <<< SECTOR_SHIFT)) ∧
    ((crypt_convert csl ctx).1 < 0 ∧
        (crypt_convert csl ctx).2.1.sector + 1
          = ctx.sector + (crypt_convert csl ctx).2.2.length
      ∨ 0 ≤ (crypt_convert csl ctx).1 ∧
        (crypt_convert csl ctx).2.1.sector
          = ctx.sector + (crypt_convert csl ctx).2.2.length ∧
        ¬ conv_guard (crypt_convert csl ctx).2.1) :=
  ⟨rfl, (crypt_convert_loop_spec csl 0 ctx le_rfl).1,
    (crypt_convert_loop_spec csl 0 ctx le_rfl).2⟩

theorem C3_crypt_convert_init_and_sectors_witness :
    (crypt_convert_init ccEx none none 4 true).sector = 4 + ccEx.iv_offset ∧
    (crypt_convert (fun _ => 0) ctxEx).2.2.getD 0 (0, 0)
      = (ctxEx.sector + 0, 1 <<< SECTOR_SHIFT) := by
  have h := C3_crypt_convert_init_and_sectors ccEx none none 4 true (fun _ => 0) ctxEx
  refine ⟨h.1, h.2.1 0 ?_⟩
  rw [crypt_convert, crypt_convert_loop_ok _ _ _ (by decide) (by decide),
    crypt_convert_loop_stop _ _ _ (by decide)]
  decide

/-! ### C2: OCF write conversion and the 30-second timeout -/

/-- When every per-sector dispatch reports success (returns 0), the loop
result is 0. -/
theorem ocf_convert_loop_zero (csl : Nat → Int) (hcsl : ∀ s, csl s = 0) :
    ∀ (r : Int) (num : Nat) (ctx : convert_context), r = 0 →
      (ocf_convert_loop csl r num ctx).1 = 0 := by
  intro r num ctx
  induction r, num, ctx using ocf_convert_loop.induct csl with
  | case1 r num ctx hg r1 hlt =>
    intro _
    have hlt' : csl ctx.sector < 0 := hlt
    exact absurd hlt' (by simp [hcsl])
  | case2 r num ctx hg ctx1 num1 r1 hge ih =>
    intro _
    have hge' : ¬ csl ctx.sector < 0 := hge
    rw [ocf_convert_loop_ok csl r num ctx hg hge']
    exact ih (hcsl ctx.sector)
  | case3 r num ctx hg =>
    intro hr
    rw [ocf_convert_loop_stop csl r num ctx hg]
    exact hr

/-- C2, corrected: on the async (OCF) backend the writing conversion
submits every sector and then waits on its private queue bounded by the
30-second timeout, but an elapsed timeout only logs (`printk`): the return
value is the loop result whether or not completed == pending was reached in
time.  In particular the function returns 0 whenever every per-sector
dispatch succeeded, even when the timeout fired with completions missing;
it does not return a negative result on timeout. -/
theorem C2_ocf_write_timeout_return (csl : Nat → Int) (ctx : convert_context)
    (cm cm' : Bool) (hcsl : ∀ s, csl s = 0) :
    (ocf_crypt_convert csl true cm ctx).1 = 0 ∧
    (ocf_crypt_convert csl true cm ctx).1 = (ocf_crypt_convert csl true cm' ctx).1 := by
  have hz := ocf_convert_loop_zero csl hcsl 0 0 ctx rfl
  by_cases hw : ctx.write <;>
    simp [ocf_crypt_convert, hw, hz]

theorem C2_ocf_write_timeout_return_witness :
    (ocf_crypt_convert (fun _ => 0) true true ctxWEx).1 = 0 ∧
    (ocf_crypt_convert (fun _ => 0) true true ctxWEx).1
      = (ocf_crypt_convert (fun _ => 0) true false ctxWEx).1 :=
  C2_ocf_write_timeout_return (fun _ => 0) ctxWEx true false (fun _ => rfl)

/-- C2, counterexample to the claim as stated: a write conversion over one
sector whose dispatch succeeds returns 0 — not a negative failure — when
`cond_met_in_time = false`, i.e. when the 30-second timeout elapsed before
completed == pending. -/
theorem C2_counterexample :
    (ocf_crypt_convert (fun _ => 0) true false ctxWEx).1 = 0 ∧
    ¬ (ocf_crypt_convert (fun _ => 0) true false ctxWEx).1 < 0 := by
  have hloop : (ocf_convert_loop (fun _ => 0) 0 0 ctxWEx).1 = 0 := by
    rw [ocf_convert_loop_ok _ _ _ _ (by decide) (by decide),
      ocf_convert_loop_stop _ _ _ _ (by decide)]
  have hw : ctxWEx.write = true := rfl
  constructor <;> simp [ocf_crypt_convert, hw, hloop]

/-! ### C4: benbi IV construction and generation -/

theorem beBytes_length (n : Nat) : ∀ v : Nat, (beBytes n v).length = n := by
  induction n with
  | zero => intro v; rfl
  | succ n ih => intro v; simp [beBytes, ih]

/-- Folding the big-endian bytes back together recovers the low `8*n` bits. -/
theorem beBytes_foldl (n : Nat) : ∀ (v a : Nat),
    (beBytes n v).foldl (fun a b => a * 256 + b) a = a * 2 ^ (8 * n) + v % 2 ^ (8 * n) := by
  induction n with
  | zero => intro v a; simp [beBytes, Nat.mod_one]
  | succ n ih =>
    intro v a
    rw [beBytes, List.foldl_cons, ih]
    have h2 : (2 : Nat) ^ (8 * (n + 1)) = 2 ^ (8 * n) * 256 := by
      rw [show 8 * (n + 1) = 8 * n + 8 by ring, pow_add]
      norm_num
    rw [h2, Nat.mod_mul]
    ring

theorem beDecode_cpu_to_be64 (v : Nat) : beDecode (cpu_to_be64 v) = v % 2 ^ 64 := by
  have h := beBytes_foldl 8 v 0
  simpa [beDecode, cpu_to_be64] using h

/-- C4, confirmed: `crypt_iv_benbi_ctr` fails with `-EINVAL` exactly when the
cipher block size is not a power of two or exceeds 512, and otherwise stores
`benbi_shift = 9 - log2(block size)`; `crypt_iv_benbi_gen` produces an IV
whose first `iv_size - 8` bytes are zero and whose last 8 bytes are the
big-endian 64-bit value `(sector << shift) + 1` (shown by decoding them back
to that value mod 2^64). -/
theorem C4_benbi_ctr_and_gen (bs : Nat) :
    ((¬ ∃ k, bs = 2 ^ k) ∨ 512 < bs → crypt_iv_benbi_ctr bs = .error (-EINVAL)) ∧
    (∀ k, bs = 2 ^ k → bs ≤ 512 →
        crypt_iv_benbi_ctr bs = .ok (9 - k) ∧ k = ilog2 bs) ∧
    (∀ iv_size shift sector, 8 ≤ iv_size →
        (crypt_iv_benbi_gen iv_size shift sector).length = iv_size ∧
        (crypt_iv_benbi_gen iv_size shift sector).take (iv_size - 8)
          = List.replicate (iv_size - 8) 0 ∧
        beDecode ((crypt_iv_benbi_gen iv_size shift sector).drop (iv_size - 8))
          = ((sector <<< shift) + 1) % 2 ^ 64) := by
  refine ⟨?_, ?_, ?_⟩
  · rintro (hnp | hbig)
    · have hne : 1 <<< ilog2 bs ≠ bs := fun he =>
        hnp ⟨ilog2 bs, by rw [Nat.shiftLeft_eq, one_mul] at he; exact he.symm⟩
      simp [crypt_iv_benbi_ctr, hne]
    · by_cases hpow : 1 <<< ilog2 bs = bs
      · have hbs : bs = 2 ^ ilog2 bs := by
          have hh := hpow
          rw [Nat.shiftLeft_eq, one_mul] at hh
          exact hh.symm
        have h9 : 9 < ilog2 bs := by
          by_contra hle
          push_neg at hle
          have hle2 : bs ≤ 512 :=
            hbs ▸ le_trans (Nat.pow_le_pow_right (by norm_num) hle) (by norm_num)
          omega
        simp [crypt_iv_benbi_ctr, hpow, h9]
      · simp [crypt_iv_benbi_ctr, hpow]
  · intro k hk hle
    have hlog : ilog2 bs = k := by
      rw [hk, ilog2, Nat.log2_two_pow]
    have hpowk : 1 <<< k = bs := by
      rw [Nat.shiftLeft_eq, one_mul, hk]
    have hk9 : k ≤ 9 := by
      by_contra hlt
      push_neg at hlt
      have h512 : 512 < bs := by
        rw [hk]
        calc (512 : Nat) = 2 ^ 9 := by norm_num
        _ < 2 ^ k := Nat.pow_lt_pow_right (by norm_num) hlt
      omega
    refine ⟨?_, hlog.symm⟩
    simp [crypt_iv_benbi_ctr, hlog, hpowk, Nat.not_lt.mpr hk9]
  · intro iv_size shift sector h8
    refine ⟨?_, ?_, ?_⟩
    · simp only [crypt_iv_benbi_gen, cpu_to_be64, List.length_append,
        List.length_replicate, beBytes_length]
      omega
    · rw [crypt_iv_benbi_gen, List.take_left' (by simp)]
    · rw [crypt_iv_benbi_gen, List.drop_left' (by simp), beDecode_cpu_to_be64]

theorem C4_benbi_ctr_and_gen_witness :
    crypt_iv_benbi_ctr 16 = .ok (9 - 4) ∧
    beDecode ((crypt_iv_benbi_gen 16 5 3).drop (16 - 8)) = ((3 <<< 5) + 1) % 2 ^ 64 := by
  have h := C4_benbi_ctr_and_gen 16
  exact ⟨(h.2.1 4 (by norm_num) (by norm_num)).1, (h.2.2 16 5 3 (by norm_num)).2.2⟩

/-! ### C5: the OCF primitive's pre-dispatch buffer copy -/

/-- C5, confirmed in its observable form: whenever `dm_ocf_process`
dispatches (IV present, request allocation succeeded), the dispatched
buffer is the destination scatter buffer and its contents equal the source
contents — when the addresses differ the source is copied into the
destination before dispatch (`memcpy(sg_virt(out), sg_virt(in), len)`),
and when they are identical the buffer already is the source.  The
separation hypothesis records `memcpy`'s precondition: the C call only ever
sees identical or disjoint buffers. -/
theorem C5_dm_ocf_process_buffer (mem : Nat → Nat) (out_addr in_addr len : Nat)
    (iv : List Nat) (getreq_ok : Bool) (hg : getreq_ok = true)
    (hsep : out_addr = in_addr ∨ out_addr + len ≤ in_addr ∨ in_addr + len ≤ out_addr) :
    except_ok (dm_ocf_process mem out_addr in_addr len (some iv) getreq_ok) = true ∧
    dispatched_buf (dm_ocf_process mem out_addr in_addr len (some iv) getreq_ok)
      = out_addr ∧
    ∀ j, j < len →
      dispatched_mem (dm_ocf_process mem out_addr in_addr len (some iv) getreq_ok)
          (out_addr + j)
        = mem (in_addr + j) := by
  subst hg
  by_cases he : out_addr = in_addr
  · subst he
    refine ⟨rfl, rfl, fun j _ => ?_⟩
    have hd : dispatched_mem (dm_ocf_process mem out_addr out_addr len (some iv) true)
        = (if out_addr ≠ out_addr then memcpy mem out_addr out_addr len else mem) := rfl
    rw [hd, if_neg (fun hne => hne rfl)]
  · refine ⟨rfl, rfl, fun j hj => ?_⟩
    have hd : dispatched_mem (dm_ocf_process mem out_addr in_addr len (some iv) true)
        = (if out_addr ≠ in_addr then memcpy mem out_addr in_addr len else mem) := rfl
    rw [hd, if_pos he]
    show (if out_addr ≤ out_addr + j ∧ out_addr + j < out_addr + len
        then mem (in_addr + (out_addr + j - out_addr)) else mem (out_addr + j))
      = mem (in_addr + j)
    rw [if_pos ⟨Nat.le_add_right _ _, by omega⟩]
    congr 1
    omega

theorem C5_dm_ocf_process_buffer_witness :
    dispatched_mem (dm_ocf_process (fun a => a) 100 0 2 (some [0]) true) (100 + 1)
      = (fun a => a) (0 + 1) ∧
    dispatched_buf (dm_ocf_process (fun a => a) 100 0 2 (some [0]) true) = 100 :=
  ⟨(C5_dm_ocf_process_buffer (fun a => a) 100 0 2 [0] true rfl
      (Or.inr (Or.inr (by norm_num)))).2.2 1 (by norm_num),
   (C5_dm_ocf_process_buffer (fun a => a) 100 0 2 [0] true rfl
      (Or.inr (Or.inr (by norm_num)))).2.1⟩

/-! ### C6: preresume refuses to run without a valid key -/

/-- C6, confirmed: `crypt_preresume` returns `-EAGAIN` exactly when
`DM_CRYPT_KEY_VALID` is clear and 0 otherwise; and after suspend followed by
the `key wipe` message (which returns 0), a resume attempt is refused with
`-EAGAIN`. -/
theorem C6_preresume_requires_key_valid (cc : crypt_config) :
    (crypt_preresume cc = if cc.flag_key_valid then 0 else -EAGAIN) ∧
    (crypt_message (crypt_postsuspend cc) [keyStr, wipeStr]).2 = 0 ∧
    crypt_preresume (crypt_message (crypt_postsuspend cc) [keyStr, wipeStr]).1
      = -EAGAIN := by
  have h1 : strnicmp_eq keyStr keyStr = true := by decide
  have h2 : strnicmp_eq wipeStr setStr = false := by decide
  have h3 : strnicmp_eq wipeStr wipeStr = true := by decide
  refine ⟨?_, ?_, ?_⟩
  · by_cases h : cc.flag_key_valid <;> simp [crypt_preresume, h]
  · simp [crypt_message, crypt_postsuspend, crypt_wipe_key, h1, h2, h3]
  · simp [crypt_message, crypt_postsuspend, crypt_wipe_key, crypt_preresume, h1, h2, h3]

/-! ### C7: key wipe -/

/-- C7, confirmed: `crypt_wipe_key` returns 0, clears `DM_CRYPT_KEY_VALID`,
and leaves all `key_size` bytes of the key buffer zero. -/
theorem C7_wipe_key_zeroes (cc : crypt_config) :
    (crypt_wipe_key cc).2 = 0 ∧
    (crypt_wipe_key cc).1.flag_key_valid = false ∧
    (crypt_wipe_key cc).1.key = List.replicate cc.key_size 0 ∧
    (crypt_wipe_key cc).1.key.length = cc.key_size :=
  ⟨rfl, rfl, rfl, by simp [crypt_wipe_key]⟩

/-! ### C8: cipher-spec parsing defaults in `crypt_ctr` -/

/-- C8, confirmed: after the `strsep` split of
`cipher[-chainmode[-ivmode[:ivopts]]]`, the compatibility block turns a
missing chainmode, or chainmode "plain" without an ivmode, into
chainmode "cbc" with ivmode "plain"; and the parse stage fails with
`-EINVAL` exactly when the post-default chainmode differs from "ecb" while
no ivmode is present. -/
theorem C8_cipher_spec_defaults (arg : List Char) :
    ((parse_cipher_spec arg).chainmode = none ∨
       ((parse_cipher_spec arg).chainmode = some plainStr ∧
        (parse_cipher_spec arg).ivmode = none) →
      (apply_compat_defaults (parse_cipher_spec arg)).chainmode = some cbcStr ∧
      (apply_compat_defaults (parse_cipher_spec arg)).ivmode = some plainStr) ∧
    (crypt_ctr_parse arg = .error (-EINVAL) ↔
      (apply_compat_defaults (parse_cipher_spec arg)).chainmode ≠ some ecbStr ∧
      (apply_compat_defaults (parse_cipher_spec arg)).ivmode = none) := by
  constructor
  · intro h
    rw [apply_compat_defaults, if_pos h]
    exact ⟨rfl, rfl⟩
  · simp only [crypt_ctr_parse]
    by_cases hc : (apply_compat_defaults (parse_cipher_spec arg)).chainmode ≠ some ecbStr ∧
        (apply_compat_defaults (parse_cipher_spec arg)).ivmode = none
    · rw [if_pos hc]
      simp [hc]
    · rw [if_neg hc]
      simp [hc]

theorem C8_cipher_spec_defaults_witness :
    (apply_compat_defaults (parse_cipher_spec aesStr)).chainmode = some cbcStr ∧
    (apply_compat_defaults (parse_cipher_spec aesStr)).ivmode = some plainStr :=
  (C8_cipher_spec_defaults aesStr).1 (by decide)

/-! ### C9: `crypt_set_key` length rule with a zero stored key size -/

/-- C9, confirmed: the same-length check `cc->key_size != key_size` is only
armed when the stored key size is nonzero; with a stored key size of zero
(a target constructed with `"-"`), `key set` accepts a well-formed hex key
of any (nonzero) length, installs its bytes, permanently installs that
length as the stored key size, and sets `DM_CRYPT_KEY_VALID`. -/
theorem C9_set_key_zero_stored (cc : crypt_config) (key : List Char) :
    (cc.key_size ≠ 0 → cc.key_size ≠ key.length >>> 1 →
      crypt_set_key cc key = (cc, -EINVAL)) ∧
    (cc.key_size = 0 → ∀ bytes, key.length >>> 1 ≠ 0 →
      crypt_decode_key key (key.length >>> 1) = .ok bytes →
      (crypt_set_key cc key).2 = 0 ∧
      (crypt_set_key cc key).1.key_size = key.length >>> 1 ∧
      (crypt_set_key cc key).1.key = bytes ∧
      (crypt_set_key cc key).1.flag_key_valid = true) := by
  constructor
  · intro h1 h2
    simp only [crypt_set_key]
    rw [if_pos ⟨h1, h2⟩]
  · intro h0 bytes hnz hd
    simp only [crypt_set_key]
    rw [if_neg (by simp [h0]), if_neg hnz, hd]
    exact ⟨rfl, rfl, rfl, rfl⟩

theorem C9_set_key_zero_stored_witness :
    crypt_set_key ccOneEx aabbStr = (ccOneEx, -EINVAL) ∧
    (crypt_set_key ccZeroEx aabbStr).2 = 0 ∧
    (crypt_set_key ccZeroEx aabbStr).1.key_size = aabbStr.length >>> 1 ∧
    (crypt_set_key ccZeroEx aabbStr).1.key = [170, 187] ∧
    (crypt_set_key ccZeroEx aabbStr).1.flag_key_valid = true :=
  ⟨(C9_set_key_zero_stored ccOneEx aabbStr).1 (by decide) (by decide),
   (C9_set_key_zero_stored ccZeroEx aabbStr).2 rfl [170, 187] (by decide) rfl⟩

/-! ### C10: the no-key string sets the key-valid flag -/

/-- C10, confirmed: `crypt_set_key` with the no-key string `"-"` on a target
whose stored key size is zero returns 0 and sets `DM_CRYPT_KEY_VALID`, so
`crypt_preresume` subsequently returns 0 despite no key bytes having been
installed. -/
theorem C10_no_key_sets_valid (cc : crypt_config) (h : cc.key_size = 0) :
    (crypt_set_key cc dashStr).2 = 0 ∧
    (crypt_set_key cc dashStr).1.flag_key_valid = true ∧
    crypt_preresume (crypt_set_key cc dashStr).1 = 0 := by
  simp only [crypt_set_key]
  rw [if_neg (by simp [h]), if_pos (by decide), if_neg (by decide)]
  exact ⟨rfl, rfl, rfl⟩

theorem C10_no_key_sets_valid_witness :
    (crypt_set_key ccZeroEx dashStr).2 = 0 ∧
    (crypt_set_key ccZeroEx dashStr).1.flag_key_valid = true ∧
    crypt_preresume (crypt_set_key ccZeroEx dashStr).1 = 0 :=
  C10_no_key_sets_valid ccZeroEx rfl

end DmCrypt
